import Mathlib

/-!
Verification of the round lifecycle engine of `modules/games.py`:
answer normalization (`_parse_answers`), the tally/scoring pass
(`_tally_game_results`), submission collection with its guards
(`answer_trivia`, `guess_number`, `rock_paper_scissors`), the countdown
scheduler (`_countdown_timer`), and trivia question selection
(`trivia_game`, `_is_similar_question`).
-/

namespace Games

/-- Characters removed by Python `str.strip()`. -/
def pyIsSpace (c : Char) : Bool :=
  c = ' ' || c = '\t' || c = '\n' || c = '\r' || c = '\x0b' || c = '\x0c'

/-- Python `str.strip()` on a character list. -/
def pyStripL (xs : List Char) : List Char :=
  ((xs.dropWhile pyIsSpace).reverse.dropWhile pyIsSpace).reverse

/-- Python `str.lower()` (ASCII range, which is all the module uses). -/
def pyLowerL (xs : List Char) : List Char := xs.map Char.toLower

/-- Python `str.strip()` on a `String`. -/
def pyStrip (s : String) : String := String.mk (pyStripL s.toList)

/-- Python `str.lower()` on a `String`. -/
def pyLower (s : String) : String := String.mk (pyLowerL s.toList)

/-- Word characters for the regex `\b` boundary: `[A-Za-z0-9_]`. -/
def isWordChar (c : Char) : Bool :=
  ('a' ≤ c && c ≤ 'z') || ('A' ≤ c && c ≤ 'Z') || ('0' ≤ c && c ≤ '9') || c = '_'

/-- `re.split(r"\bor\b", ·, flags=re.IGNORECASE)`: split at every
occurrence of the word "or" (case-insensitive) whose neighbours are
non-word characters or the string ends. `prev` is the character just
before the current position (`none` at the start of the string). -/
def splitOrAux : Option Char → List Char → List (List Char)
  | _, [] => [[]]
  | _, [c1] => [[c1]]
  | prev, c1 :: c2 :: rest2 =>
    if c1.toLower = 'o' && c2.toLower = 'r'
        && (match prev with | none => true | some p => !isWordChar p)
        && (match rest2 with | [] => true | d :: _ => !isWordChar d) then
      [] :: splitOrAux (some c2) rest2
    else
      match splitOrAux (some c1) (c2 :: rest2) with
      | [] => [[c1]]
      | s :: ss => (c1 :: s) :: ss

/-- The `seen`/`unique` loop of `_parse_answers`: order-preserving
de-duplication keeping first occurrences. -/
def dedupFirstAux (seen : List String) : List String → List String
  | [] => []
  | v :: rest =>
    if seen.contains v then dedupFirstAux seen rest
    else v :: dedupFirstAux (v :: seen) rest

/-- Order-preserving de-duplication, first occurrences kept. -/
def dedupFirst (xs : List String) : List String := dedupFirstAux [] xs

/-- `games.py::_parse_answers`: split an answer string on pipe, slash, the
word "or" (case-insensitive, word-boundary) and comma, in that order, each
delimiter applied to every variant produced so far; then strip and
lower-case each part, drop empty parts, and de-duplicate keeping first
occurrences. -/
def parseAnswers (answer_str : String) : List String :=
  if answer_str = "" then []
  else
    let variants0 := [answer_str.toList]
    let variants1 := variants0.flatMap (List.splitOnP (· = '|'))
    let variants2 := variants1.flatMap (List.splitOnP (· = '/'))
    let variants3 := variants2.flatMap (splitOrAux none)
    let variants4 := variants3.flatMap (List.splitOnP (· = ','))
    let normalized := (variants4.filter (fun v => pyStripL v ≠ [])).map
        (fun v => String.mk (pyLowerL (pyStripL v)))
    dedupFirst normalized

/-- Canonical answers the trivia tally actually checks against
(`_tally_game_results`, trivia branch): `_parse_answers` of the stored
answer string, falling back to the single lower-cased stripped raw string
when parsing yields nothing. -/
def validAnswersOf (correct_answer : String) : List String :=
  let v := parseAnswers correct_answer
  if v = [] then [pyStrip (pyLower correct_answer)] else v

/-! ### Stable sorting, modelling Python `list.sort(key=...)` -/

/-- Insert `x` into `l` before the first element `y` with `le x y`;
elements comparing equal keep their original relative order, as Python's
stable sort does. -/
def insLe (le : α → α → Bool) (x : α) : List α → List α
  | [] => [x]
  | y :: ys => if le x y then x :: y :: ys else y :: insLe le x ys

/-- Stable insertion sort: the unique stable sort for a total preorder,
hence the meaning of Python `list.sort(key=...)`. -/
def sortStable (le : α → α → Bool) : List α → List α
  | [] => []
  | x :: xs => insLe le x (sortStable le xs)

/-! ### Submitted values and Python `int()` / `str()` -/

/-- A value held in a round's `answers` dict: games store either the raw
submitted text (trivia) or an integer (number guessing). -/
inductive GameValue
  | txt (s : String)
  | int (n : Int)
deriving DecidableEq

/-- Python `str(value)` on a stored submission value. -/
def pyStr : GameValue → String
  | .txt s => s
  | .int n => toString n

/-- Digits of a decimal numeral to a natural number. -/
def digitsToNat (ds : List Char) : ℕ :=
  ds.foldl (fun a c => 10 * a + (c.toNat - '0'.toNat)) 0

/-- Python `int(s)` on a string: optional surrounding whitespace, optional
sign, then a non-empty run of digits; anything else raises (modelled as
`none`). -/
def pyIntOfString (s : String) : Option Int :=
  match pyStripL s.toList with
  | '-' :: ds =>
    if ds ≠ [] ∧ ds.all Char.isDigit then some (-(digitsToNat ds : Int)) else none
  | '+' :: ds =>
    if ds ≠ [] ∧ ds.all Char.isDigit then some (digitsToNat ds : Int) else none
  | ds =>
    if ds ≠ [] ∧ ds.all Char.isDigit then some (digitsToNat ds : Int) else none

/-- Python `int(value)` as the game code applies it to a stored submission
value (`try: int(...) except: ...`). -/
def pyToInt : GameValue → Option Int
  | .int n => some n
  | .txt s => pyIntOfString s

/-! ### Tally engine (`_tally_game_results`): pure scoring -/

/-- Participant identity. -/
abbrev UserId := ℕ

/-- Elapsed/monotonic times, `asyncio.get_event_loop().time()` values. -/
abbrev Time := ℚ

/-- Normalization the trivia tally applies to a submitted value:
`str(answer).lower().strip()`. -/
def normSubmission (v : GameValue) : String := pyStrip (pyLower (pyStr v))

/-- Outcome of the trivia branch of `_tally_game_results`: the correct
submissions `(user, elapsed)` sorted fastest first, the incorrect
submissions `(user, raw value, elapsed)` in dict order, and the canonical
answer list used for checking. -/
structure TriviaTally where
  correct : List (UserId × Time)
  incorrect : List (UserId × GameValue × Time)
  validAnswers : List String
deriving DecidableEq

/-- The trivia branch of `_tally_game_results` (partition then
`correct_users.sort(key=lambda x: x[1])`). `answers` is the round's
submissions dict in insertion order. -/
def tallyTrivia (correct_answer : String)
    (answers : List (UserId × GameValue × Time)) : TriviaTally :=
  let valid := validAnswersOf correct_answer
  let correct0 := (answers.filter (fun a => valid.contains (normSubmission a.2.1))).map
      (fun a => (a.1, a.2.2))
  let incorrect := answers.filter (fun a => !valid.contains (normSubmission a.2.1))
  { correct := sortStable (fun x y => x.2 ≤ y.2) correct0
    incorrect := incorrect
    validAnswers := valid }

/-- The "no one got it right" report of the trivia tally (lines 838-843):
produced when submissions exist but none is correct; carries the string
interpolated into "The answer was **…**" and the list shown as "Other
acceptable answers" (shown only when more than one variant exists). -/
def triviaNoWinnerReport (correct_answer : String)
    (answers : List (UserId × GameValue × Time)) : Option (String × List String) :=
  if answers = [] then none
  else
    let t := tallyTrivia correct_answer answers
    if t.correct = [] then
      some (correct_answer, if 1 < t.validAnswers.length then t.validAnswers else [])
    else none

/-- Outcome of the number-guess branch of `_tally_game_results`. -/
inductive NumberTally
  /-- Some guesses equal the secret: those `(user, elapsed)` sorted fastest
  first. -/
  | exact (winners : List (UserId × Time))
  /-- No submission converted by `int()`. -/
  | noValidGuesses
  /-- No exact match: the sorted diff entries `(user, |guess − secret|,
  guess, elapsed)` achieving the minimum distance. -/
  | closest (winners : List (UserId × ℕ × Int × Time))
deriving DecidableEq

/-- Lexicographic key `(distance, time)` used by `diffs.sort`. -/
def diffLe (x y : UserId × ℕ × Int × Time) : Bool :=
  x.2.1 < y.2.1 || (x.2.1 = y.2.1 && x.2.2.2 ≤ y.2.2.2)

/-- The `all_guesses` accumulation loop of the number-guess tally
(lines 906-913): submissions whose value `int()` converts, as
`(user, value, elapsed)`, in dict order. -/
def validGuesses (answers : List (UserId × GameValue × Time)) :
    List (UserId × Int × Time) :=
  answers.filterMap (fun a => (pyToInt a.2.1).map (fun v => (a.1, v, a.2.2)))

/-- The number-guess branch of `_tally_game_results` (lines 901-974):
`int()`-convertible guesses only; exact matches win sorted by time, else
all guesses at minimum `|guess − secret|` are the joint closest. -/
def tallyNumber (secret : Int)
    (answers : List (UserId × GameValue × Time)) : NumberTally :=
  let all_guesses := validGuesses answers
  let exact_matches := (all_guesses.filter (fun g => g.2.1 = secret)).map
      (fun g => (g.1, g.2.2))
  if exact_matches ≠ [] then
    .exact (sortStable (fun x y => x.2 ≤ y.2) exact_matches)
  else if all_guesses = [] then .noValidGuesses
  else
    let diffs := all_guesses.map (fun g => (g.1, (g.2.1 - secret).natAbs, g.2.1, g.2.2))
    let sorted := sortStable diffLe diffs
    let best_diff := match sorted with | [] => 0 | d :: _ => d.2.1
    .closest (sorted.filter (fun d => d.2.1 = best_diff))

/-! ### Round registry state (`active_questions`, `active_games`) -/

/-- Chat scope a round is bound to (`ctx.channel.id`). -/
abbrev ChannelId := ℕ

/-- Game kinds (`'trivia'`, `'number_guess'`, `'rps'`). -/
inductive QType
  | trivia
  | numberGuess
  | rps
deriving DecidableEq

/-- One `active_questions` entry. Each variant carries exactly the keys its
creation site stores; `.get(key, default)` reads of keys a variant lacks
are modelled by the accessors below returning the default. -/
inductive QData
  | trivia (question answer : String) (startTime : Time)
      (answeredUsers : List UserId) (answers : List (UserId × GameValue × Time))
      (ctx : Option ChannelId) (gameOver : Bool)
  | numberGuess (secret : Int) (startTime : Time)
      (answers : List (UserId × GameValue × Time))
      (ctx : Option ChannelId) (gameOver : Bool)
  | rps (startTime : Time) (choices : List (UserId × String × Time))
      (ctx : Option ChannelId) (gameOver : Bool)
deriving DecidableEq

namespace QData

def qtype : QData → QType
  | .trivia .. => .trivia
  | .numberGuess .. => .numberGuess
  | .rps .. => .rps

def startTime : QData → Time
  | .trivia _ _ st _ _ _ _ => st
  | .numberGuess _ st _ _ _ => st
  | .rps st _ _ _ => st

/-- `question_data.get('answers', {})`: the submissions dict; `{}` for an
rps round, which stores `choices` instead. -/
def answers : QData → List (UserId × GameValue × Time)
  | .trivia _ _ _ _ a _ _ => a
  | .numberGuess _ _ a _ _ => a
  | .rps _ _ _ _ => []

def answeredUsers : QData → List UserId
  | .trivia _ _ _ au _ _ _ => au
  | _ => []

def choices : QData → List (UserId × String × Time)
  | .rps _ cs _ _ => cs
  | _ => []

def ctx : QData → Option ChannelId
  | .trivia _ _ _ _ _ c _ => c
  | .numberGuess _ _ _ c _ => c
  | .rps _ _ c _ => c

def gameOver : QData → Bool
  | .trivia _ _ _ _ _ _ go => go
  | .numberGuess _ _ _ _ go => go
  | .rps _ _ _ go => go

/-- `question_data['game_over'] = True`. -/
def setGameOver : QData → QData
  | .trivia q a st au ans c _ => .trivia q a st au ans c true
  | .numberGuess sec st ans c _ => .numberGuess sec st ans c true
  | .rps st cs c _ => .rps st cs c true

end QData

/-- First-match association-list lookup: `d[k]` / `k in d` on a Python
dict held in insertion order. -/
def dictGet [DecidableEq κ] (m : List (κ × β)) (k : κ) : Option β :=
  (m.find? (fun p => p.1 = k)).map (·.2)

/-- Python `d[k] = v`: overwrite in place, else append. -/
def dictSet [DecidableEq κ] : List (κ × β) → κ → β → List (κ × β)
  | [], k, v => [(k, v)]
  | p :: rest, k, v => if p.1 = k then (k, v) :: rest else p :: dictSet rest k v

/-- Python `del d[k]` (on dicts with unique keys). -/
def dictDel [DecidableEq κ] (m : List (κ × β)) (k : κ) : List (κ × β) :=
  m.filter (fun p => p.1 ≠ k)

/-- A `active_games` entry: the per-user pointer `{'type': …,
'question_id': …}` into a shared round. -/
structure GameRef where
  gtype : QType
  qid : ℕ
deriving DecidableEq

/-- The coordinator's shared mutable registry. -/
structure GState where
  activeQuestions : List (ℕ × QData)
  activeGames : List (UserId × GameRef)
deriving DecidableEq

/-! ### Tally with removal and the countdown expiry step -/

/-- What `_tally_game_results` announces (and whether it ran at all). -/
inductive TallyOutcome
  /-- Guard at lines 769-771: the id is gone; return with no state change. -/
  | notFound
  /-- Lines 777-787: the round had an empty `answers` dict. -/
  | noParticipation (t : QType)
  /-- Trivia branch result. -/
  | trivia (t : TriviaTally)
  /-- Number-guess branch result. -/
  | number (t : NumberTally)
  /-- Fallthrough at lines 976-977: bare removal, nothing announced. -/
  | removedOnly
deriving DecidableEq

/-- `games.py::_tally_game_results`: presence guard, per-kind scoring,
then `del self.active_questions[question_id]` on every path that found
the round. -/
def tallyGameResults (s : GState) (qid : ℕ) : GState × TallyOutcome :=
  match dictGet s.activeQuestions qid with
  | none => (s, .notFound)
  | some qd =>
    let s2 : GState := { s with activeQuestions := dictDel s.activeQuestions qid }
    if qd.answers = [] then (s2, .noParticipation qd.qtype)
    else
      match qd with
      | .trivia _ answer _ _ answers _ _ => (s2, .trivia (tallyTrivia answer answers))
      | .numberGuess secret _ answers _ _ => (s2, .number (tallyNumber secret answers))
      | .rps _ _ _ _ => (s2, .removedOnly)

/-- `question_data['game_over'] = True` applied inside the registry:
the state just before the expiry tally runs. -/
def markGameOver (s : GState) (qid : ℕ) (qd : QData) : GState :=
  { s with activeQuestions := dictSet s.activeQuestions qid qd.setGameOver }

/-- The expiry step of `_countdown_timer` (lines 666-674): when the round
is still registered, set its `game_over` flag and tally it; when it is not
(removed externally), skip the tally call entirely (`none`). -/
def countdownExpire (s : GState) (qid : ℕ) : GState × Option TallyOutcome :=
  match dictGet s.activeQuestions qid with
  | none => (s, none)
  | some qd =>
    let r := tallyGameResults (markGameOver s qid qd) qid
    (r.1, some r.2)

/-! ### Submission collection (`answer_trivia`, `guess_number`,
`rock_paper_scissors`) -/

/-- The user-visible outcome of a submission attempt, one constructor per
distinct message the source returns. -/
inductive SubmitOutcome
  /-- "no active game" guidance. -/
  | noActiveGame
  /-- "The … expired. Start a new one …". -/
  | expired
  /-- "You already submitted/answered …". -/
  | alreadySubmitted
  /-- Trivia only: "Time's up! Results are being tallied...". -/
  | timeUp
  /-- Number guess: `int()` failed, "Please submit a valid integer guess.". -/
  | invalidInteger
  /-- Rps: invalid choice string, validation response. -/
  | invalidChoice
  /-- Submission stored. -/
  | ok
deriving DecidableEq

/-- Body of `answer_trivia` once a `question_id` has been resolved
(lines 719-743): presence, duplicate and `game_over` guards, then store
`{'answer': …, 'time': elapsed}` and drop the caller's binding. -/
def answerTriviaCore (s : GState) (user : UserId) (ans : GameValue)
    (qid : ℕ) (now : Time) : GState × SubmitOutcome :=
  match dictGet s.activeQuestions qid with
  | none => ({ s with activeGames := dictDel s.activeGames user }, .expired)
  | some qd =>
    let elapsed := now - qd.startTime
    if user ∈ qd.answeredUsers then (s, .alreadySubmitted)
    else if qd.gameOver then (s, .timeUp)
    else
      let qd2 : QData :=
        match qd with
        | .trivia q a st au ans0 c go =>
          .trivia q a st (au ++ [user]) (dictSet ans0 user (ans, elapsed)) c go
        | other => other
      ({ s with
          activeQuestions := dictSet s.activeQuestions qid qd2
          activeGames := dictDel s.activeGames user }, .ok)

/-- The check `user_id in self.active_games and
self.active_games[user_id].get('type') == <kind>`: the caller's bound
round id, when bound to a round of the right kind. -/
def boundQid (s : GState) (user : UserId) (gt : QType) : Option ℕ :=
  match dictGet s.activeGames user with
  | some r => if r.gtype = gt then some r.qid else none
  | none => none

/-- The scan `for qid, qdata in self.active_questions.items(): ...`: the
first open (not `game_over`) round of the given kind bound to the caller's
channel. -/
def scanOpen (s : GState) (gt : QType) (ch : ChannelId) : Option (ℕ × QData) :=
  s.activeQuestions.find? (fun p =>
    p.2.qtype = gt && p.2.ctx = some ch && !p.2.gameOver)

/-- `games.py::answer_trivia`: resolve the caller's binding, else scan
`active_questions` for the first open trivia round in the same channel and
bind to it; then run the guarded store. -/
def answerTrivia (s : GState) (user : UserId) (ans : GameValue)
    (ctx : Option ChannelId) (now : Time) : GState × SubmitOutcome :=
  match boundQid s user .trivia with
  | some qid => answerTriviaCore s user ans qid now
  | none =>
    match ctx with
    | none => (s, .noActiveGame)
    | some ch =>
      match scanOpen s .trivia ch with
      | none => (s, .noActiveGame)
      | some found =>
        let s2 : GState :=
          { s with activeGames := dictSet s.activeGames user ⟨.trivia, found.1⟩ }
        answerTriviaCore s2 user ans found.1 now

/-- Body of `guess_number` once a `question_id` has been resolved
(lines 320-352): presence and duplicate guards, `int()` validation, then
store `{'answer': guess_val, 'time': elapsed}` and drop the binding.
There is no `game_over` guard on this path. -/
def guessNumberCore (s : GState) (user : UserId) (guess : GameValue)
    (qid : ℕ) (now : Time) : GState × SubmitOutcome :=
  match dictGet s.activeQuestions qid with
  | none => ({ s with activeGames := dictDel s.activeGames user }, .expired)
  | some qd =>
    let elapsed := now - qd.startTime
    if (qd.answers.find? (fun a => a.1 = user)).isSome then (s, .alreadySubmitted)
    else
      match pyToInt guess with
      | none => (s, .invalidInteger)
      | some v =>
        let qd2 : QData :=
          match qd with
          | .numberGuess sec st ans0 c go =>
            .numberGuess sec st (dictSet ans0 user (GameValue.int v, elapsed)) c go
          | other => other
        ({ s with
            activeQuestions := dictSet s.activeQuestions qid qd2
            activeGames := dictDel s.activeGames user }, .ok)

/-- `games.py::guess_number`: resolve the caller's binding, else scan for
the first open number-guess round in the same channel (skipping rounds
whose `game_over` flag is set) and bind to it; then run the guarded
store. -/
def guessNumber (s : GState) (user : UserId) (guess : GameValue)
    (ctx : Option ChannelId) (now : Time) : GState × SubmitOutcome :=
  match boundQid s user .numberGuess with
  | some qid => guessNumberCore s user guess qid now
  | none =>
    match ctx with
    | none => (s, .noActiveGame)
    | some ch =>
      match scanOpen s .numberGuess ch with
      | none => (s, .noActiveGame)
      | some found =>
        let s2 : GState :=
          { s with activeGames := dictSet s.activeGames user ⟨.numberGuess, found.1⟩ }
        guessNumberCore s2 user guess found.1 now

/-! ### Rock-paper-scissors: duel and multiplayer collection -/

/-- `choices = ['rock', 'paper', 'scissors']`. -/
def rpsChoiceStrings : List String := ["rock", "paper", "scissors"]

/-- The duel's winning condition, written exactly as lines 414-416:
rock beats scissors, paper beats rock, scissors beats paper. -/
def rpsWins (u b : String) : Bool :=
  (u = "rock" && b = "scissors") || (u = "paper" && b = "rock") ||
    (u = "scissors" && b = "paper")

/-- Result of the immediate duel path of `rock_paper_scissors`. -/
inductive DuelResult
  | invalidChoice
  | tie
  | userWins
  | botWins
deriving DecidableEq

/-- `rock_paper_scissors`, immediate-duel fallback (lines 391-431), on the
already lower-cased user text (`none` when the input was not a string):
reject invalid choices without scoring, else tie / user wins / bot wins
against the bot's random choice. -/
def rpsDuel (uc : Option String) (bot : String) : DuelResult :=
  match uc with
  | none => .invalidChoice
  | some u =>
    if u = "" || !rpsChoiceStrings.contains u then .invalidChoice
    else if u = bot then .tie
    else if rpsWins u bot then .userWins
    else .botWins

/-- Outcome of a `rock_paper_scissors` call: either the multiplayer
collection path ran (an open rps round exists in the caller's channel) or
the immediate duel resolved. -/
inductive RpsOutcome
  | collected (o : SubmitOutcome)
  | duel (r : DuelResult)
deriving DecidableEq

/-- `games.py::rock_paper_scissors` (lines 354-431): lower-case the choice;
if an open rps round exists in the caller's channel, validate and collect
it (duplicate-guarded, binding dropped); otherwise resolve an immediate
duel against `bot`. -/
def rockPaperScissors (s : GState) (user : UserId) (userText : Option String)
    (ctx : Option ChannelId) (bot : String) (now : Time) : GState × RpsOutcome :=
  let uc : Option String := userText.map pyLower
  let found : Option (ℕ × QData) :=
    match ctx with
    | none => none
    | some ch => scanOpen s .rps ch
  match found with
  | some (qid, qd) =>
    let elapsed := now - qd.startTime
    let validChoice : Bool :=
      match uc with
      | none => false
      | some u => rpsChoiceStrings.contains u
    if !validChoice then (s, .collected .invalidChoice)
    else if (qd.choices.find? (fun c => c.1 = user)).isSome then
      (s, .collected .alreadySubmitted)
    else
      let qd2 : QData :=
        match qd with
        | .rps st cs c go => .rps st (dictSet cs user (uc.getD "", elapsed)) c go
        | other => other
      ({ s with
          activeQuestions := dictSet s.activeQuestions qid qd2
          activeGames := dictDel s.activeGames user }, .collected .ok)
  | none => (s, .duel (rpsDuel uc bot))

/-! ### Countdown scheduler announcements (`_countdown_timer`) -/

/-- `COUNTDOWN_INTERVAL = 5`. -/
def countdownInterval : ℕ := 5

/-- Python `range(t, 0, -COUNTDOWN_INTERVAL)`: `t, t-5, t-10, …` while
positive. -/
def boundaryList (t : ℕ) : List ℕ :=
  (List.range ((t + 4) / 5)).map (fun k => t - 5 * k)

/-- One pass of the announcement scan (lines 676-684) with remaining time
`r`: the first boundary that is strictly below the timeout, at or above
`r`, and not yet announced; the loop announces it and breaks. -/
def pollAnnounce (timeout : ℕ) (announced : List ℕ) (r : ℚ) : Option ℕ :=
  (boundaryList timeout).find? (fun b =>
    decide (b < timeout) && decide (r ≤ (b : ℚ)) && !announced.contains b)

/-- Run the announcement scan over a sequence of observed remaining times,
threading the `announced_times` set; returns the boundaries announced, in
order. -/
def runAnnounce (timeout : ℕ) (announced : List ℕ) : List ℚ → List ℕ
  | [] => []
  | r :: rs =>
    match pollAnnounce timeout announced r with
    | some b => b :: runAnnounce timeout (announced ++ [b]) rs
    | none => runAnnounce timeout announced rs

/-! ### Trivia question selection (`trivia_game`, `_is_similar_question`) -/

/-- A raised Python exception. -/
inductive PyErr
  | attributeError
deriving DecidableEq

/-- `TRIVIA_SIMILARITY_THRESHOLD = 0.7`. -/
def similarityThreshold : ℚ := mkRat 7 10

/-- `games.py::_is_similar_question`, parameterized by a similarity oracle
`ρ` standing for `difflib.SequenceMatcher(None, ·, ·).ratio()` (a rational
in `[0, 1]`, equal to `1` on identical strings). Touching the
`_recent_trivia` attribute before `set_knowledge_manager` created it
raises `AttributeError` (the `none` state). -/
def isSimilarQuestion (ρ : String → String → ℚ)
    (recentTrivia : Option (List String)) (new_question : String) :
    Except PyErr Bool :=
  match recentTrivia with
  | none => .error .attributeError
  | some buf =>
    .ok (buf.any (fun r => decide (similarityThreshold ≤ ρ (pyStrip (pyLower new_question)) r)))

/-- The static fallback pool of `trivia_game`. -/
def staticQuestions : List (String × String) :=
  [("What's the capital of Japan?", "tokyo | tokyo, japan"),
   ("What's 7 x 8?", "56"),
   ("What color do you get mixing red and blue?", "purple | violet"),
   ("How many days are in a leap year?", "366"),
   ("What's the largest planet in our solar system?", "jupiter")]

/-- The scan `for item in questions: if not self._is_similar_question(…)`
(lines 581-584): first pool entry not similar to the recent buffer, `none`
when every entry is similar, propagating a raised `AttributeError`. -/
def findFresh (ρ : String → String → ℚ) (recentTrivia : Option (List String)) :
    List (String × String) → Except PyErr (Option (String × String))
  | [] => .ok none
  | q :: rest =>
    match isSimilarQuestion ρ recentTrivia q.1 with
    | .error e => .error e
    | .ok sim => if sim then findFresh ρ recentTrivia rest else .ok (some q)

/-- The static-fallback selection of `trivia_game` (lines 579-588): first
non-similar pool entry, else `random.choice(questions)`, modelled by the
index `randIdx` the RNG returns. -/
def staticSelect (ρ : String → String → ℚ) (recentTrivia : Option (List String))
    (randIdx : Fin 5) : Except PyErr (String × String) :=
  match findFresh ρ recentTrivia staticQuestions with
  | .error e => .error e
  | .ok (some q) => .ok q
  | .ok none => .ok (staticQuestions.get ⟨randIdx.1, randIdx.isLt⟩)

/-- `collections.deque(maxlen=50).append`: append right, evicting from the
left when full. -/
def dequeAppend50 (buf : List String) (x : String) : List String :=
  let b2 := buf ++ [x]
  if 50 < b2.length then b2.drop (b2.length - 50) else b2

/-- `games.py::trivia_game` restricted to a coordinator with no AI and no
DB source configured (`api_manager = None`, `ai_db = None`, the only
configuration reachable without the injected collaborators): the static
selection followed by the recent-buffer append of the normalized question
(the append sits in `try/except` and swallows its own failure). Returns
the chosen `(question, answer)` and the updated buffer. -/
def triviaGameStatic (ρ : String → String → ℚ)
    (recentTrivia : Option (List String)) (randIdx : Fin 5) :
    Except PyErr ((String × String) × Option (List String)) :=
  match staticSelect ρ recentTrivia randIdx with
  | .error e => .error e
  | .ok qd =>
    .ok (qd, recentTrivia.map (fun buf => dequeAppend50 buf (pyStrip (pyLower qd.1))))

/-- The slice of the coordinator's construction relevant to the recent
buffer: `__init__` never creates `_recent_trivia`; only
`set_knowledge_manager` does (as an empty deque). -/
structure SelectorState where
  recentTrivia : Option (List String)
deriving DecidableEq

/-- `TsundereGames.__init__`: no `_recent_trivia` attribute. -/
def initSelectorState : SelectorState := ⟨none⟩

/-- `TsundereGames.set_knowledge_manager`: creates the empty recent-trivia
deque. -/
def setKnowledgeManager (_s : SelectorState) : SelectorState := ⟨some []⟩

/-! ### Concrete states and inputs used by the claims -/

/-- The trivia example from the spec: A answers "Tokyo" at 3.0s, B answers
"tokyo " at 1.0s, C answers "Osaka" at 0.5s (users 1, 2, 3). -/
def subsC3 : List (UserId × GameValue × Time) :=
  [(1, GameValue.txt "Tokyo", 3), (2, GameValue.txt "tokyo ", 1),
   (3, GameValue.txt "Osaka", mkRat 1 2)]

/-- Spec example: secret 42, A (user 1) guesses 42 at 5s, B (user 2)
guesses 40 at 1s. -/
def subsC5a : List (UserId × GameValue × Time) :=
  [(1, GameValue.int 42, 5), (2, GameValue.int 40, 1)]

/-- Spec example: secret 42, A (user 1) guesses 40 at 1s, B (user 2)
guesses 44 at 2s; no exact match, both at distance 2. -/
def subsC5b : List (UserId × GameValue × Time) :=
  [(1, GameValue.int 40, 1), (2, GameValue.int 44, 2)]

/-- The registry state of the C2 counterexample: number-guess round 1 is
present but closed (`game_over = True`, the moment between the expiry mark
and the tally's removal), with no submissions; user 9 holds a binding to
it. -/
def stateCX : GState :=
  ⟨[(1, QData.numberGuess 42 0 [] none true)], [(9, ⟨QType.numberGuess, 1⟩)]⟩

/-- An rps round at expiry with two collected choices (rock vs scissors),
in channel 5, already marked game-over by the scheduler. -/
def stateRPS : GState :=
  ⟨[(1, QData.rps 0 [(1, "rock", 1), (2, "scissors", 2)] (some 5) true)], []⟩

/-- An open rps round in channel 5 with no choices yet. -/
def stateRPSOpen : GState := ⟨[(1, QData.rps 0 [] (some 5) false)], []⟩

/-- A concrete similarity oracle agreeing with
`difflib.SequenceMatcher.ratio` on the inputs the counterexample reaches:
identical strings have ratio 1. -/
def rhoEq : String → String → ℚ := fun a b => if a = b then 1 else 0

/-- The recent buffer after all five static questions were used, oldest
(pool entry 0) first. -/
def bufAll : List String := staticQuestions.map (fun q => pyStrip (pyLower q.1))

/-! ## Character- and string-level lemmas -/

/-! ### Stable-sort lemmas -/

theorem insLe_perm (le : α → α → Bool) (x : α) (l : List α) :
    List.Perm (insLe le x l) (x :: l) := by
  induction l with
  | nil => simp [insLe]
  | cons y ys ih =>
    simp only [insLe]
    split
    · exact List.Perm.refl _
    · exact (List.Perm.cons y ih).trans (List.Perm.swap x y ys)

theorem sortStable_perm (le : α → α → Bool) (l : List α) :
    List.Perm (sortStable le l) l := by
  induction l with
  | nil => simp [sortStable]
  | cons x xs ih =>
    exact (insLe_perm le x (sortStable le xs)).trans (List.Perm.cons x ih)

theorem mem_sortStable (le : α → α → Bool) (l : List α) (a : α) :
    a ∈ sortStable le l ↔ a ∈ l :=
  (sortStable_perm le l).mem_iff

theorem pairwise_insLe (le : α → α → Bool)
    (htot : ∀ a b, le a b = true ∨ le b a = true)
    (htrans : ∀ a b c, le a b = true → le b c = true → le a c = true)
    (x : α) (l : List α) (h : l.Pairwise (fun a b => le a b = true)) :
    (insLe le x l).Pairwise (fun a b => le a b = true) := by
  induction l with
  | nil => simp [insLe]
  | cons y ys ih =>
    rcases List.pairwise_cons.mp h with ⟨hy, hys⟩
    simp only [insLe]
    split
    · rename_i hxy
      refine List.pairwise_cons.mpr ⟨?_, h⟩
      intro b hb
      rcases List.mem_cons.mp hb with rfl | hb
      · exact hxy
      · exact htrans _ _ _ hxy (hy b hb)
    · rename_i hxy
      have hyx : le y x = true := (htot x y).resolve_left hxy
      refine List.pairwise_cons.mpr ⟨?_, ih hys⟩
      intro b hb
      have := (insLe_perm le x ys).mem_iff.mp hb
      rcases List.mem_cons.mp this with rfl | hb2
      · exact hyx
      · exact hy b hb2

theorem pairwise_sortStable (le : α → α → Bool)
    (htot : ∀ a b, le a b = true ∨ le b a = true)
    (htrans : ∀ a b c, le a b = true → le b c = true → le a c = true)
    (l : List α) :
    (sortStable le l).Pairwise (fun a b => le a b = true) := by
  induction l with
  | nil => simp [sortStable]
  | cons x xs ih => exact pairwise_insLe le htot htrans x (sortStable le xs) ih


theorem char_toNat_ofNat {n : ℕ} (h : n.isValidChar) : (Char.ofNat n).toNat = n := by
  simp [Char.ofNat, h, Char.ofNatAux, Char.toNat, UInt32.toNat, BitVec.toNat_ofNatLt]

theorem toLower_idem (c : Char) : c.toLower.toLower = c.toLower := by
  by_cases h : c.toNat ≥ 65 ∧ c.toNat ≤ 90
  · have hv : (Char.toNat c + 32).isValidChar := by
      rcases h with ⟨h1, h2⟩; left; omega
    simp only [Char.toLower]
    rw [if_pos h, char_toNat_ofNat hv, if_neg (by omega)]
  · simp only [Char.toLower]
    rw [if_neg h, if_neg h]

theorem pyIsSpace_eq_false_of_ge (x : Char) (h65 : 65 ≤ x.toNat) :
    pyIsSpace x = false := by
  simp only [pyIsSpace, Bool.or_eq_false_iff]
  refine ⟨⟨⟨⟨⟨?_, ?_⟩, ?_⟩, ?_⟩, ?_⟩, ?_⟩ <;>
    (simp only [decide_eq_false_iff_not]; intro hc; subst hc; revert h65; decide)

theorem pyIsSpace_toLower (c : Char) : pyIsSpace c.toLower = pyIsSpace c := by
  by_cases h : c.toNat ≥ 65 ∧ c.toNat ≤ 90
  · have hv : (Char.toNat c + 32).isValidChar := by
      rcases h with ⟨h1, h2⟩; left; omega
    simp only [Char.toLower]
    rw [if_pos h]
    rw [pyIsSpace_eq_false_of_ge c h.1,
      pyIsSpace_eq_false_of_ge _ (by rw [char_toNat_ofNat hv]; omega)]
  · simp only [Char.toLower]
    rw [if_neg h]

theorem dropWhile_eq_self_of_head (p : Char → Bool) (l : List Char)
    (h : ∀ x, l.head? = some x → p x = false) : l.dropWhile p = l := by
  cases l with
  | nil => rfl
  | cons a l => exact List.dropWhile_cons_of_neg (by simp [h a rfl])

theorem dropWhile_dropWhile (p : Char → Bool) (l : List Char) :
    (l.dropWhile p).dropWhile p = l.dropWhile p := by
  apply dropWhile_eq_self_of_head
  intro x hx
  have h0 := List.head?_dropWhile_not p l
  rw [hx] at h0
  exact h0

theorem pyStripL_idem (xs : List Char) : pyStripL (pyStripL xs) = pyStripL xs := by
  set a := xs.dropWhile pyIsSpace with ha
  set b := a.reverse.dropWhile pyIsSpace with hb
  show ((b.reverse.dropWhile pyIsSpace).reverse.dropWhile pyIsSpace).reverse = b.reverse
  have h1 : b.reverse.dropWhile pyIsSpace = b.reverse := by
    apply dropWhile_eq_self_of_head
    intro x hx
    have hsuff : b <:+ a.reverse := by rw [hb]; exact List.dropWhile_suffix _
    have hpref : b.reverse <+: a := by
      have h2 := (@List.reverse_prefix _ b a.reverse).mpr hsuff
      rwa [List.reverse_reverse] at h2
    rcases hpref with ⟨t, ht⟩
    have hxa : a.head? = some x := by
      rw [← ht, List.head?_append, hx]; rfl
    have h0 := List.head?_dropWhile_not pyIsSpace xs
    rw [← ha, hxa] at h0
    exact h0
  rw [h1, List.reverse_reverse, dropWhile_dropWhile]

theorem pyLowerL_idem (xs : List Char) : pyLowerL (pyLowerL xs) = pyLowerL xs := by
  simp only [pyLowerL, List.map_map]
  exact List.map_congr_left (fun c _ => toLower_idem c)

theorem pyIsSpace_comp_toLower : (pyIsSpace ∘ Char.toLower) = pyIsSpace :=
  funext pyIsSpace_toLower

theorem pyStripL_pyLowerL (xs : List Char) :
    pyStripL (pyLowerL xs) = pyLowerL (pyStripL xs) := by
  simp only [pyStripL, pyLowerL, List.dropWhile_map, pyIsSpace_comp_toLower,
    ← List.map_reverse]

/-! ## Normalizer (`_parse_answers`) lemmas -/

theorem dedupFirstAux_sound (xs : List String) : ∀ seen : List String,
    (dedupFirstAux seen xs).Nodup ∧
      ∀ v ∈ dedupFirstAux seen xs, v ∉ seen ∧ v ∈ xs := by
  induction xs with
  | nil => intro seen; simp [dedupFirstAux]
  | cons x rest ih =>
    intro seen
    simp only [dedupFirstAux]
    split
    · rcases ih seen with ⟨h1, h2⟩
      exact ⟨h1, fun v hv => ⟨(h2 v hv).1, List.mem_cons_of_mem x (h2 v hv).2⟩⟩
    · rename_i hx
      rcases ih (x :: seen) with ⟨h1, h2⟩
      refine ⟨List.nodup_cons.mpr ⟨fun hmem => ?_, h1⟩, ?_⟩
      · exact (h2 x hmem).1 (List.mem_cons_self x seen)
      · intro v hv
        rcases List.mem_cons.mp hv with rfl | hv2
        · exact ⟨by simpa using hx, List.mem_cons_self v rest⟩
        · refine ⟨fun hs => (h2 v hv2).1 (List.mem_cons_of_mem x hs), ?_⟩
          exact List.mem_cons_of_mem x (h2 v hv2).2

theorem dedupFirst_nodup (xs : List String) : (dedupFirst xs).Nodup :=
  (dedupFirstAux_sound xs []).1

theorem mem_dedupFirst (xs : List String) (v : String) (h : v ∈ dedupFirst xs) :
    v ∈ xs :=
  ((dedupFirstAux_sound xs []).2 v h).2

theorem string_mk_ne_empty (l : List Char) (h : l ≠ []) : String.mk l ≠ "" := by
  intro he
  apply h
  have : (String.mk l).data = ("" : String).data := by rw [he]
  simpa using this

/-- The shape of every element `_parse_answers` emits: the lower-cased
strip of some split part, with a non-empty strip. -/
theorem parseAnswers_mem_shape (s : String) (v : String) (h : v ∈ parseAnswers s) :
    ∃ w : List Char, pyStripL w ≠ [] ∧ v = String.mk (pyLowerL (pyStripL w)) := by
  unfold parseAnswers at h
  split at h
  · simp at h
  · have h2 := mem_dedupFirst _ v h
    rcases List.mem_map.mp h2 with ⟨w, hw, rfl⟩
    exact ⟨w, by simpa using (List.mem_filter.mp hw).2, rfl⟩

/-! ## Claim C4: the answer normalizer -/

/-- C4: the answer normalizer splits on pipe, slash, the word "or"
(case-insensitive, word-boundary) and comma in sequence so separators
compose; it returns an order-preserving, duplicate-free list of trimmed
lower-cased variants; the empty input yields the empty list; and when
normalization yields nothing the trivia tally uses the lower-cased trimmed
original string as the sole canonical answer. -/
theorem parseAnswers_normalizer_spec (s : String) :
    parseAnswers "" = [] ∧
    (parseAnswers s).Nodup ∧
    (∀ v ∈ parseAnswers s, v ≠ "" ∧ pyStrip v = v ∧ pyLower v = v) ∧
    (parseAnswers s = [] → validAnswersOf s = [pyStrip (pyLower s)]) ∧
    parseAnswers "a|b / c OR d, e" = ["a", "b", "c", "d", "e"] ∧
    parseAnswers "B | a,b / A or b" = ["b", "a"] ∧
    parseAnswers "color" = ["color"] := by
  refine ⟨by decide, ?_, ?_, ?_, by decide, by decide, by decide⟩
  · unfold parseAnswers
    split
    · exact List.nodup_nil
    · exact dedupFirst_nodup _
  · intro v hv
    rcases parseAnswers_mem_shape s v hv with ⟨w, hw, rfl⟩
    refine ⟨string_mk_ne_empty _ (fun hnil => hw (by simpa [pyLowerL] using hnil)), ?_, ?_⟩
    · show String.mk (pyStripL (pyLowerL (pyStripL w))) = _
      rw [pyStripL_pyLowerL, pyStripL_idem]
    · show String.mk (pyLowerL (pyLowerL (pyStripL w))) = _
      rw [pyLowerL_idem]
  · intro h
    simp [validAnswersOf, h, pyStrip, pyLower]

/-- Witness for `parseAnswers_normalizer_spec`: the membership and fallback
hypotheses discharged at concrete inputs. -/
theorem parseAnswers_normalizer_spec_witness :
    validAnswersOf " , , " = [pyStrip (pyLower " , , ")] ∧
    ("q" ≠ "" ∧ pyStrip "q" = "q" ∧ pyLower "q" = "q") :=
  ⟨(parseAnswers_normalizer_spec " , , ").2.2.2.1 (by decide),
   (parseAnswers_normalizer_spec "Q|The letter Q").2.2.1 "q" (by decide)⟩

/-! ## Claim C3: trivia tally ranking -/

/-- C3 counterexample: with `answer_spec = "tokyo"`, B is the fastest
correct answer but not the sole one — A's "Tokyo" also normalizes to
"tokyo" and is counted correct at 3.0s, so the correct list is
`[B, A]`, not `[B]`. -/
theorem tallyTrivia_example_B_not_sole :
    (tallyTrivia "tokyo" subsC3).correct = [(2, 1), (1, 3)] ∧
    (tallyTrivia "tokyo" subsC3).correct ≠ [(2, 1)] ∧
    (tallyTrivia "tokyo" subsC3).incorrect = [(3, GameValue.txt "Osaka", mkRat 1 2)] := by
  refine ⟨by decide, by decide, by decide⟩

/-- Python's stable sort by elapsed time produces a list that is pairwise
ordered by time. -/
theorem sortStable_byTime_pairwise {β : Type} (l : List (β × Time)) :
    (sortStable (fun x y => x.2 ≤ y.2) l).Pairwise (fun x y => x.2 ≤ y.2) := by
  have h := pairwise_sortStable (fun (x y : β × Time) => decide (x.2 ≤ y.2))
    (fun a b => by
      rcases le_total a.2 b.2 with h2 | h2
      · exact Or.inl (by simpa using h2)
      · exact Or.inr (by simpa using h2))
    (fun a b c h1 h2 => by
      simp only [decide_eq_true_eq] at h1 h2 ⊢
      exact le_trans h1 h2)
    l
  refine List.Pairwise.imp ?_ h
  intro a b hab
  simpa using hab

/-- C3 (amended): a submission is counted correct iff its lower-cased
trimmed text equals some canonical variant of the answer spec; correct
submissions are ranked by ascending elapsed time. On the spec's example,
B is ranked first at 1.0s, A is also correct at 3.0s, and C is
incorrect. -/
theorem tallyTrivia_correct_ranked (answer : String)
    (subs : List (UserId × GameValue × Time)) :
    ((tallyTrivia answer subs).correct.Pairwise (fun x y => x.2 ≤ y.2)) ∧
    (∀ p : UserId × Time, p ∈ (tallyTrivia answer subs).correct ↔
      ∃ v, (p.1, v, p.2) ∈ subs ∧ normSubmission v ∈ validAnswersOf answer) ∧
    (∀ q : UserId × GameValue × Time, q ∈ (tallyTrivia answer subs).incorrect ↔
      q ∈ subs ∧ normSubmission q.2.1 ∉ validAnswersOf answer) ∧
    (tallyTrivia "tokyo" subsC3).correct = [(2, 1), (1, 3)] ∧
    (tallyTrivia "tokyo" subsC3).incorrect = [(3, GameValue.txt "Osaka", mkRat 1 2)] := by
  refine ⟨?_, ?_, ?_, by decide, by decide⟩
  · exact sortStable_byTime_pairwise _
  · intro p
    show p ∈ sortStable _ _ ↔ _
    rw [mem_sortStable]
    constructor
    · intro hp
      rcases List.mem_map.mp hp with ⟨a, ha, rfl⟩
      rcases List.mem_filter.mp ha with ⟨ha1, ha2⟩
      exact ⟨a.2.1, ha1, by simpa [List.elem_iff] using ha2⟩
    · rintro ⟨v, hv, hvc⟩
      apply List.mem_map.mpr
      refine ⟨(p.1, v, p.2), List.mem_filter.mpr ⟨hv, ?_⟩, rfl⟩
      simpa [List.elem_iff] using hvc
  · intro q
    constructor
    · intro hq
      rcases List.mem_filter.mp hq with ⟨h1, h2⟩
      exact ⟨h1, by simpa [List.elem_iff] using h2⟩
    · rintro ⟨h1, h2⟩
      exact List.mem_filter.mpr ⟨h1, by simpa [List.elem_iff] using h2⟩

/-! ## Claim C7: trivia "no winner" report -/

/-- C7 counterexample: with `answer_spec = "a|b"` and a single wrong
submission, the report shows the raw stored string "a|b" (not the first
canonical variant "a") and lists all variants `["a", "b"]` (not just the
remaining `["b"]`). -/
theorem triviaNoWinnerReport_raw_counterexample :
    triviaNoWinnerReport "a|b" [(1, GameValue.txt "z", 1)] =
      some ("a|b", ["a", "b"]) ∧
    triviaNoWinnerReport "a|b" [(1, GameValue.txt "z", 1)] ≠
      some ("a", ["b"]) := by
  exact ⟨by decide, by decide⟩

/-- C7 (amended): when submissions exist and none is correct, the tally
reports the raw stored answer string as the displayed correct answer, and
when more than one canonical variant exists it surfaces the full variant
list (first variant included) as additionally acceptable. -/
theorem triviaNoWinnerReport_spec (answer : String)
    (subs : List (UserId × GameValue × Time)) (hne : subs ≠ [])
    (hnc : ∀ a ∈ subs, normSubmission a.2.1 ∉ validAnswersOf answer) :
    (tallyTrivia answer subs).correct = [] ∧
    triviaNoWinnerReport answer subs =
      some (answer,
        if 1 < (validAnswersOf answer).length then validAnswersOf answer else []) := by
  have hc : (tallyTrivia answer subs).correct = [] := by
    show sortStable _ ((subs.filter _).map _) = []
    have hf : subs.filter
        (fun a => (validAnswersOf answer).contains (normSubmission a.2.1)) = [] := by
      apply List.filter_eq_nil_iff.mpr
      intro a ha
      have h2 := hnc a ha
      simpa [List.elem_iff] using h2
    rw [hf]
    rfl
  have hva : (tallyTrivia answer subs).validAnswers = validAnswersOf answer := rfl
  refine ⟨hc, ?_⟩
  unfold triviaNoWinnerReport
  rw [if_neg hne]
  simp only [hc, hva, if_pos rfl, if_true, eq_self_iff_true]

/-- Witness for `triviaNoWinnerReport_spec` at `answer_spec = "a|b"` with
one wrong submission. -/
theorem triviaNoWinnerReport_spec_witness :
    (tallyTrivia "a|b" [(1, GameValue.txt "z", 1)]).correct = [] ∧
    triviaNoWinnerReport "a|b" [(1, GameValue.txt "z", 1)] =
      some ("a|b",
        if 1 < (validAnswersOf "a|b").length then validAnswersOf "a|b" else []) :=
  triviaNoWinnerReport_spec "a|b" [(1, GameValue.txt "z", 1)]
    (by decide) (by decide)

/-! ## Claim C5: number-guess tally -/

theorem filterMap_filter_isSome {α β : Type} (f : α → Option β) (l : List α) :
    (l.filter (fun a => (f a).isSome)).filterMap f = l.filterMap f := by
  induction l with
  | nil => rfl
  | cons a rest ih =>
    cases hv : f a with
    | none => simp [List.filter_cons, List.filterMap_cons, hv, ih]
    | some v => simp [List.filter_cons, List.filterMap_cons, hv, ih]

theorem validGuesses_filter (subs : List (UserId × GameValue × Time)) :
    validGuesses (subs.filter (fun a => (pyToInt a.2.1).isSome)) = validGuesses subs := by
  unfold validGuesses
  rw [show (fun a : UserId × GameValue × Time => (pyToInt a.2.1).isSome) =
      (fun a : UserId × GameValue × Time =>
        ((pyToInt a.2.1).map (fun v => (a.1, v, a.2.2))).isSome) from
    funext (fun a => by cases pyToInt a.2.1 <;> rfl)]
  exact filterMap_filter_isSome _ subs

theorem diffLe_total (x y : UserId × ℕ × Int × Time) :
    diffLe x y = true ∨ diffLe y x = true := by
  by_cases h : x.2.1 < y.2.1
  · left; simp [diffLe, h]
  · by_cases h2 : y.2.1 < x.2.1
    · right; simp [diffLe, h2]
    · have he : x.2.1 = y.2.1 := by omega
      rcases le_total x.2.2.2 y.2.2.2 with h3 | h3
      · left; simp [diffLe, he, h3]
      · right; simp [diffLe, he.symm, h3]

theorem diffLe_trans (x y z : UserId × ℕ × Int × Time)
    (h1 : diffLe x y = true) (h2 : diffLe y z = true) : diffLe x z = true := by
  simp only [diffLe, Bool.or_eq_true, Bool.and_eq_true, decide_eq_true_eq] at *
  rcases h1 with h1 | ⟨h1e, h1t⟩ <;> rcases h2 with h2 | ⟨h2e, h2t⟩
  · left; omega
  · left; omega
  · left; omega
  · right; exact ⟨by omega, le_trans h1t h2t⟩

theorem tallyNumber_exact_eq (secret : Int) (subs : List (UserId × GameValue × Time))
    (h : ((validGuesses subs).filter (fun g => g.2.1 = secret)).map
      (fun g => (g.1, g.2.2)) ≠ []) :
    tallyNumber secret subs = .exact (sortStable (fun x y => x.2 ≤ y.2)
      (((validGuesses subs).filter (fun g => g.2.1 = secret)).map
        (fun g => (g.1, g.2.2)))) := by
  unfold tallyNumber
  rw [if_pos h]

theorem tallyNumber_closest_eq (secret : Int) (subs : List (UserId × GameValue × Time))
    (hm : ((validGuesses subs).filter (fun g => g.2.1 = secret)).map
      (fun g => (g.1, g.2.2)) = [])
    (hne : validGuesses subs ≠ []) :
    tallyNumber secret subs = .closest
      ((sortStable diffLe ((validGuesses subs).map
          (fun g => (g.1, (g.2.1 - secret).natAbs, g.2.1, g.2.2)))).filter
        (fun d => d.2.1 =
          (match sortStable diffLe ((validGuesses subs).map
              (fun g => (g.1, (g.2.1 - secret).natAbs, g.2.1, g.2.2))) with
           | [] => 0 | d :: _ => d.2.1))) := by
  unfold tallyNumber
  rw [if_neg (by simp [hm]), if_neg hne]

/-- C5: number-guess tally. If any converted guess equals the secret,
exactly those submissions win, ranked by ascending elapsed time; with no
exact match, exactly the valid guesses at minimum distance are reported
together; non-integer submissions never affect the outcome. With the
spec's examples: A wins over the faster-but-wrong B, and 40/44 tie at
distance 2 from 42. -/
theorem tallyNumber_scoring_spec (secret : Int)
    (subs : List (UserId × GameValue × Time)) :
    ((∃ g ∈ validGuesses subs, g.2.1 = secret) →
      ∃ ws, tallyNumber secret subs = .exact ws ∧
        ws.Pairwise (fun x y => x.2 ≤ y.2) ∧
        ∀ p : UserId × Time, p ∈ ws ↔ (p.1, secret, p.2) ∈ validGuesses subs) ∧
    ((∀ g ∈ validGuesses subs, g.2.1 ≠ secret) → validGuesses subs ≠ [] →
      ∃ ws, tallyNumber secret subs = .closest ws ∧ ws ≠ [] ∧
        ∀ d : UserId × ℕ × Int × Time, d ∈ ws ↔
          ((d.1, d.2.2.1, d.2.2.2) ∈ validGuesses subs ∧
           d.2.1 = (d.2.2.1 - secret).natAbs ∧
           ∀ g ∈ validGuesses subs, d.2.1 ≤ (g.2.1 - secret).natAbs)) ∧
    tallyNumber secret subs =
      tallyNumber secret (subs.filter (fun a => (pyToInt a.2.1).isSome)) ∧
    tallyNumber 42 subsC5a = .exact [(1, 5)] ∧
    tallyNumber 42 subsC5b = .closest [(1, 2, 40, 1), (2, 2, 44, 2)] := by
  refine ⟨?_, ?_, ?_, by decide, by decide⟩
  · rintro ⟨g, hg, hgs⟩
    have hfne : (validGuesses subs).filter (fun g => g.2.1 = secret) ≠ [] := by
      intro hnil
      have := List.filter_eq_nil_iff.mp hnil g hg
      simp [hgs] at this
    have hmne : ((validGuesses subs).filter (fun g => g.2.1 = secret)).map
        (fun g => (g.1, g.2.2)) ≠ [] := by
      simpa using hfne
    refine ⟨_, tallyNumber_exact_eq secret subs hmne,
      sortStable_byTime_pairwise _, ?_⟩
    intro p
    rw [mem_sortStable]
    constructor
    · intro hp
      rcases List.mem_map.mp hp with ⟨a, ha, rfl⟩
      rcases List.mem_filter.mp ha with ⟨ha1, ha2⟩
      have : a.2.1 = secret := by simpa using ha2
      rwa [show (a.1, secret, a.2.2) = a from by rw [← this]]
    · intro hp
      exact List.mem_map.mpr ⟨(p.1, secret, p.2),
        List.mem_filter.mpr ⟨hp, by simp⟩, rfl⟩
  · intro hno hne
    have hf : (validGuesses subs).filter (fun g => g.2.1 = secret) = [] := by
      apply List.filter_eq_nil_iff.mpr
      intro g hg
      simpa using hno g hg
    have hm : ((validGuesses subs).filter (fun g => g.2.1 = secret)).map
        (fun g => (g.1, g.2.2)) = [] := by rw [hf]; rfl
    have hunf := tallyNumber_closest_eq secret subs hm hne
    have hdne : (validGuesses subs).map
        (fun g => (g.1, (g.2.1 - secret).natAbs, g.2.1, g.2.2)) ≠ [] := by
      simpa using hne
    have hperm := sortStable_perm diffLe ((validGuesses subs).map
      (fun g => (g.1, (g.2.1 - secret).natAbs, g.2.1, g.2.2)))
    have hsne : sortStable diffLe ((validGuesses subs).map
        (fun g => (g.1, (g.2.1 - secret).natAbs, g.2.1, g.2.2))) ≠ [] := by
      intro hnil
      rw [hnil] at hperm
      exact hdne hperm.symm.eq_nil
    obtain ⟨b, tail, hcons⟩ := List.exists_cons_of_ne_nil hsne
    rw [hcons] at hunf hperm
    have hbmem : b ∈ (validGuesses subs).map
        (fun g => (g.1, (g.2.1 - secret).natAbs, g.2.1, g.2.2)) :=
      hperm.mem_iff.mp (List.mem_cons_self b tail)
    have hpw := pairwise_sortStable diffLe diffLe_total diffLe_trans
      ((validGuesses subs).map (fun g => (g.1, (g.2.1 - secret).natAbs, g.2.1, g.2.2)))
    rw [hcons] at hpw
    have hmin : ∀ e ∈ b :: tail, b.2.1 ≤ e.2.1 := by
      intro e he
      rcases List.mem_cons.mp he with rfl | he2
      · exact le_refl _
      · have := (List.pairwise_cons.mp hpw).1 e he2
        simp only [diffLe, Bool.or_eq_true, Bool.and_eq_true, decide_eq_true_eq] at this
        rcases this with h | ⟨h, _⟩
        · exact Nat.le_of_lt h
        · exact Nat.le_of_eq h
    have hmind : ∀ g2, g2 ∈ validGuesses subs →
        b.2.1 ≤ (g2.2.1 - secret).natAbs := by
      intro g2 hg2
      have := hmin (g2.1, (g2.2.1 - secret).natAbs, g2.2.1, g2.2.2)
        (hperm.mem_iff.mpr (List.mem_map.mpr ⟨g2, hg2, rfl⟩))
      simpa using this
    refine ⟨_, hunf, ?_, ?_⟩
    · intro hnil
      have hb : b ∈ (b :: tail).filter (fun d => d.2.1 = b.2.1) :=
        List.mem_filter.mpr ⟨List.mem_cons_self b tail, by simp⟩
      rw [hnil] at hb
      exact List.not_mem_nil b hb
    · intro d
      constructor
      · intro hd
        rcases List.mem_filter.mp hd with ⟨hd1, hd2⟩
        have hdd : d.2.1 = b.2.1 := by simpa using hd2
        have hdm : d ∈ (validGuesses subs).map
            (fun g => (g.1, (g.2.1 - secret).natAbs, g.2.1, g.2.2)) :=
          hperm.mem_iff.mp hd1
        rcases List.mem_map.mp hdm with ⟨g2, hg2, hgd⟩
        refine ⟨?_, ?_, ?_⟩
        · rw [← hgd]; exact hg2
        · rw [← hgd]
        · intro g3 hg3
          have := hmind g3 hg3
          omega
      · rintro ⟨hd1, hd2, hd3⟩
        have hdm : d ∈ (validGuesses subs).map
            (fun g => (g.1, (g.2.1 - secret).natAbs, g.2.1, g.2.2)) := by
          apply List.mem_map.mpr
          exact ⟨(d.1, d.2.2.1, d.2.2.2), hd1, by rw [← hd2]⟩
        apply List.mem_filter.mpr
        refine ⟨hperm.mem_iff.mpr hdm, ?_⟩
        have hb1 : b.2.1 ≤ d.2.1 := by
          have := hmin d (hperm.mem_iff.mpr hdm)
          exact this
        have hb2 : d.2.1 ≤ b.2.1 := by
          rcases List.mem_map.mp hbmem with ⟨gb, hgb, hgbd⟩
          have := hd3 gb hgb
          rw [← hgbd]
          simpa using this
        simp only [decide_eq_true_eq]
        omega
  · conv_rhs => rw [show tallyNumber secret (subs.filter (fun a => (pyToInt a.2.1).isSome)) =
      tallyNumber secret subs from by unfold tallyNumber; rw [validGuesses_filter]]

/-- Witness for `tallyNumber_scoring_spec`: both scoring branches
discharged on the spec's concrete examples. -/
theorem tallyNumber_scoring_spec_witness :
    (∃ ws, tallyNumber 42 subsC5a = .exact ws ∧
      ws.Pairwise (fun x y => x.2 ≤ y.2) ∧
      ∀ p : UserId × Time, p ∈ ws ↔ (p.1, 42, p.2) ∈ validGuesses subsC5a) ∧
    (∃ ws, tallyNumber 42 subsC5b = .closest ws ∧ ws ≠ [] ∧
      ∀ d : UserId × ℕ × Int × Time, d ∈ ws ↔
        ((d.1, d.2.2.1, d.2.2.2) ∈ validGuesses subsC5b ∧
         d.2.1 = (d.2.2.1 - 42).natAbs ∧
         ∀ g ∈ validGuesses subsC5b, d.2.1 ≤ (g.2.1 - 42).natAbs)) :=
  ⟨(tallyNumber_scoring_spec 42 subsC5a).1 ⟨(1, 42, 5), by decide, rfl⟩,
   (tallyNumber_scoring_spec 42 subsC5b).2.1 (by decide) (by decide)⟩

/-! ## Dict lemmas -/

theorem dictGet_dictDel {β : Type} (m : List (ℕ × β)) (k : ℕ) :
    dictGet (dictDel m k) k = none := by
  induction m with
  | nil => rfl
  | cons p rest ih =>
    simp only [dictDel] at ih ⊢
    rw [List.filter_cons]
    by_cases h : p.1 = k
    · rw [if_neg (by simp [h])]
      exact ih
    · rw [if_pos (by simp [h])]
      simp only [dictGet, List.find?_cons]
      rw [show (decide (p.1 = k)) = false from by simp [h]]
      exact ih

theorem dictGet_dictSet {β : Type} (m : List (ℕ × β)) (k : ℕ) (v : β) :
    dictGet (dictSet m k v) k = some v := by
  induction m with
  | nil => simp [dictSet, dictGet, List.find?_cons]
  | cons p rest ih =>
    by_cases h : p.1 = k
    · simp [dictSet, dictGet, h, List.find?_cons]
    · simpa [dictSet, dictGet, h, List.find?_cons] using ih

/-! ## Claim C1: close-and-tally runs at most once -/

theorem tallyGameResults_notFound (s : GState) (qid : ℕ)
    (h : dictGet s.activeQuestions qid = none) :
    tallyGameResults s qid = (s, .notFound) := by
  unfold tallyGameResults
  rw [h]

theorem tallyGameResults_found (s : GState) (qid : ℕ) (qd : QData)
    (h : dictGet s.activeQuestions qid = some qd) :
    (tallyGameResults s qid).1 =
      { s with activeQuestions := dictDel s.activeQuestions qid } ∧
    (tallyGameResults s qid).2 ≠ .notFound := by
  simp only [tallyGameResults, h]
  by_cases he : qd.answers = []
  · rw [if_pos he]
    exact ⟨rfl, by simp⟩
  · rw [if_neg he]
    cases qd <;> exact ⟨rfl, by simp⟩

theorem countdownExpire_none (s : GState) (qid : ℕ)
    (h : dictGet s.activeQuestions qid = none) :
    countdownExpire s qid = (s, none) := by
  unfold countdownExpire
  rw [h]

/-- C1: on a round id still present in the registry, the expiry step marks
the round game-over, performs a real tally (not the not-found no-op), and
deletes the id; afterwards a direct tally attempt and a second expiry pass
both find the id absent and return with the state unchanged. On an id
already absent (round removed externally) the expiry step itself is a
no-op. -/
theorem closeAndTally_at_most_once (s : GState) (qid : ℕ) :
    (∀ qd, dictGet s.activeQuestions qid = some qd →
      (countdownExpire s qid).2 =
        some (tallyGameResults (markGameOver s qid qd) qid).2 ∧
      (countdownExpire s qid).2 ≠ some .notFound ∧
      dictGet (countdownExpire s qid).1.activeQuestions qid = none ∧
      tallyGameResults (countdownExpire s qid).1 qid =
        ((countdownExpire s qid).1, .notFound) ∧
      countdownExpire (countdownExpire s qid).1 qid =
        ((countdownExpire s qid).1, none)) ∧
    (dictGet s.activeQuestions qid = none →
      countdownExpire s qid = (s, none) ∧
      tallyGameResults s qid = (s, .notFound)) := by
  constructor
  · intro qd h
    have hunf : countdownExpire s qid =
        ((tallyGameResults (markGameOver s qid qd) qid).1,
         some (tallyGameResults (markGameOver s qid qd) qid).2) := by
      unfold countdownExpire
      rw [h]
    have h2 : dictGet (markGameOver s qid qd).activeQuestions qid =
        some qd.setGameOver := dictGet_dictSet _ _ _
    rcases tallyGameResults_found _ qid qd.setGameOver h2 with ⟨hst, hout⟩
    have hgone : dictGet (countdownExpire s qid).1.activeQuestions qid = none := by
      rw [hunf]
      show dictGet (tallyGameResults _ qid).1.activeQuestions qid = none
      rw [hst]
      exact dictGet_dictDel _ _
    refine ⟨by rw [hunf], ?_, hgone, ?_, ?_⟩
    · rw [hunf]
      intro hcontra
      exact hout (Option.some.inj hcontra)
    · exact tallyGameResults_notFound _ qid hgone
    · exact countdownExpire_none _ qid hgone
  · intro h
    exact ⟨countdownExpire_none s qid h, tallyGameResults_notFound s qid h⟩

/-- Witness for `closeAndTally_at_most_once`: a one-round registry holding
a trivia round with one submission. -/
theorem closeAndTally_at_most_once_witness :
    (countdownExpire
        ⟨[(1, QData.trivia "q" "a" 0 [7] [(7, GameValue.txt "a", 2)] none false)], []⟩
        1).2 ≠ some .notFound ∧
    dictGet (countdownExpire
        ⟨[(1, QData.trivia "q" "a" 0 [7] [(7, GameValue.txt "a", 2)] none false)], []⟩
        1).1.activeQuestions 1 = none := by
  have h := (closeAndTally_at_most_once
    ⟨[(1, QData.trivia "q" "a" 0 [7] [(7, GameValue.txt "a", 2)] none false)], []⟩ 1).1
    (QData.trivia "q" "a" 0 [7] [(7, GameValue.txt "a", 2)] none false) (by decide)
  exact ⟨h.2.1, h.2.2.1⟩

/-! ## Claim C2: submission guards -/

theorem answerTriviaCore_not_ok (s : GState) (user : UserId) (v : GameValue)
    (qid : ℕ) (now : Time)
    (h : (answerTriviaCore s user v qid now).2 ≠ .ok) :
    (answerTriviaCore s user v qid now).1.activeQuestions = s.activeQuestions := by
  unfold answerTriviaCore at h ⊢
  rcases hq : dictGet s.activeQuestions qid with _ | qd
  · simp only [hq]
  · simp only [hq] at h ⊢
    by_cases h1 : user ∈ qd.answeredUsers
    · rw [if_pos h1]
    · rw [if_neg h1] at h ⊢
      by_cases h2 : qd.gameOver = true
      · rw [if_pos h2]
      · rw [if_neg h2] at h ⊢
        exact absurd rfl h

theorem guessNumberCore_not_ok (s : GState) (user : UserId) (v : GameValue)
    (qid : ℕ) (now : Time)
    (h : (guessNumberCore s user v qid now).2 ≠ .ok) :
    (guessNumberCore s user v qid now).1.activeQuestions = s.activeQuestions := by
  unfold guessNumberCore at h ⊢
  rcases hq : dictGet s.activeQuestions qid with _ | qd
  · simp only [hq]
  · simp only [hq] at h ⊢
    by_cases h1 : (qd.answers.find? (fun a => a.1 = user)).isSome = true
    · rw [if_pos h1]
    · rw [if_neg h1] at h ⊢
      rcases hv : pyToInt v with _ | n
      · simp only [hv]
      · simp only [hv] at h
        exact absurd rfl h

theorem answerTrivia_not_ok (s : GState) (user : UserId) (v : GameValue)
    (ctx : Option ChannelId) (now : Time)
    (h : (answerTrivia s user v ctx now).2 ≠ .ok) :
    (answerTrivia s user v ctx now).1.activeQuestions = s.activeQuestions := by
  unfold answerTrivia at h ⊢
  rcases hb : boundQid s user .trivia with _ | qid
  · simp only [hb] at h ⊢
    rcases ctx with _ | ch
    · rfl
    · rcases hf : scanOpen s .trivia ch with _ | found
      · simp only [hf]
      · simp only [hf] at h ⊢
        exact answerTriviaCore_not_ok _ user v found.1 now h
  · simp only [hb] at h ⊢
    exact answerTriviaCore_not_ok s user v qid now h

theorem guessNumber_not_ok (s : GState) (user : UserId) (v : GameValue)
    (ctx : Option ChannelId) (now : Time)
    (h : (guessNumber s user v ctx now).2 ≠ .ok) :
    (guessNumber s user v ctx now).1.activeQuestions = s.activeQuestions := by
  unfold guessNumber at h ⊢
  rcases hb : boundQid s user .numberGuess with _ | qid
  · simp only [hb] at h ⊢
    rcases ctx with _ | ch
    · rfl
    · rcases hf : scanOpen s .numberGuess ch with _ | found
      · simp only [hf]
      · simp only [hf] at h ⊢
        exact guessNumberCore_not_ok _ user v found.1 now h
  · simp only [hb] at h ⊢
    exact guessNumberCore_not_ok s user v qid now h

/-- C2 counterexample: a guess on a closed (game_over) number-guess round
that is still in the registry is accepted and stored, not rejected — the
closed-round guard exists only on the trivia path. -/
theorem guessNumber_closed_round_counterexample :
    (dictGet stateCX.activeQuestions 1).map QData.gameOver = some true ∧
    (guessNumber stateCX 9 (GameValue.int 5) none 3).2 = SubmitOutcome.ok ∧
    (guessNumber stateCX 9 (GameValue.int 5) none 3).1.activeQuestions.map
      (fun p => (p.1, p.2.answers.length)) = [(1, 1)] := by
  refine ⟨by decide, by decide, by decide⟩

/-- C2 (amended): submission guards. Any rejected attempt leaves every
round's submissions unchanged. With a binding to an existing trivia round:
a duplicate submission, then a closed round, are rejected; otherwise the
answer is stored with elapsed time `now − created_at` and the binding is
dropped. With a binding to an existing number-guess round the duplicate
and non-integer guards apply and the store path is the same, but there is
no closed-round rejection (see the counterexample); closed rounds are only
skipped by the channel-scan resolution. A binding to a vanished round is
answered with the expired message and the binding is dropped. -/
theorem record_submission_guards (s : GState) (user : UserId) (v : GameValue)
    (ctx : Option ChannelId) (now : Time) :
    ((answerTrivia s user v ctx now).2 ≠ .ok →
      (answerTrivia s user v ctx now).1.activeQuestions = s.activeQuestions) ∧
    ((guessNumber s user v ctx now).2 ≠ .ok →
      (guessNumber s user v ctx now).1.activeQuestions = s.activeQuestions) ∧
    (∀ r qd, dictGet s.activeGames user = some r → r.gtype = .trivia →
      dictGet s.activeQuestions r.qid = some qd →
      (user ∈ qd.answeredUsers →
        answerTrivia s user v ctx now = (s, .alreadySubmitted)) ∧
      (user ∉ qd.answeredUsers → qd.gameOver = true →
        answerTrivia s user v ctx now = (s, .timeUp)) ∧
      (∀ q a st au ans0 c, user ∉ au → qd = QData.trivia q a st au ans0 c false →
        answerTrivia s user v ctx now =
          ({ activeQuestions := dictSet s.activeQuestions r.qid
              (QData.trivia q a st (au ++ [user])
                (dictSet ans0 user (v, now - st)) c false),
             activeGames := dictDel s.activeGames user }, .ok))) ∧
    (∀ r, dictGet s.activeGames user = some r → r.gtype = .trivia →
      dictGet s.activeQuestions r.qid = none →
      answerTrivia s user v ctx now =
        ({ s with activeGames := dictDel s.activeGames user }, .expired)) ∧
    (∀ r qd, dictGet s.activeGames user = some r → r.gtype = .numberGuess →
      dictGet s.activeQuestions r.qid = some qd →
      ((qd.answers.find? (fun a => a.1 = user)).isSome →
        guessNumber s user v ctx now = (s, .alreadySubmitted)) ∧
      ((qd.answers.find? (fun a => a.1 = user)) = none → pyToInt v = none →
        guessNumber s user v ctx now = (s, .invalidInteger)) ∧
      (∀ n sec st ans0 c go,
        (qd.answers.find? (fun a => a.1 = user)) = none → pyToInt v = some n →
        qd = QData.numberGuess sec st ans0 c go →
        guessNumber s user v ctx now =
          ({ activeQuestions := dictSet s.activeQuestions r.qid
              (QData.numberGuess sec st
                (dictSet ans0 user (GameValue.int n, now - st)) c go),
             activeGames := dictDel s.activeGames user }, .ok))) ∧
    (∀ r, dictGet s.activeGames user = some r → r.gtype = .numberGuess →
      dictGet s.activeQuestions r.qid = none →
      guessNumber s user v ctx now =
        ({ s with activeGames := dictDel s.activeGames user }, .expired)) ∧
    (∀ gt ch found, scanOpen s gt ch = some found → found.2.gameOver = false) := by
  refine ⟨answerTrivia_not_ok s user v ctx now,
    guessNumber_not_ok s user v ctx now, ?_, ?_, ?_, ?_, ?_⟩
  · intro r qd hr hgt hq
    have hb : boundQid s user .trivia = some r.qid := by
      simp [boundQid, hr, hgt]
    refine ⟨?_, ?_, ?_⟩
    · intro hmem
      simp only [answerTrivia, hb]
      unfold answerTriviaCore
      simp only [hq]
      rw [if_pos hmem]
    · intro hmem hgo
      simp only [answerTrivia, hb]
      unfold answerTriviaCore
      simp only [hq]
      rw [if_neg hmem, if_pos hgo]
    · intro q a st au ans0 c hmem hqd
      subst hqd
      simp only [answerTrivia, hb]
      unfold answerTriviaCore
      simp only [hq]
      rw [if_neg (by simpa [QData.answeredUsers] using hmem),
        if_neg (by simp [QData.gameOver])]
      rfl
  · intro r hr hgt hq
    have hb : boundQid s user .trivia = some r.qid := by
      simp [boundQid, hr, hgt]
    simp only [answerTrivia, hb]
    unfold answerTriviaCore
    simp only [hq]
  · intro r qd hr hgt hq
    have hb : boundQid s user .numberGuess = some r.qid := by
      simp [boundQid, hr, hgt]
    refine ⟨?_, ?_, ?_⟩
    · intro hdup
      simp only [guessNumber, hb]
      unfold guessNumberCore
      simp only [hq]
      rw [if_pos hdup]
    · intro hdup hv
      simp only [guessNumber, hb]
      unfold guessNumberCore
      simp only [hq]
      rw [if_neg (by simp [hdup]), hv]
    · intro n sec st ans0 c go hdup hv hqd
      subst hqd
      simp only [guessNumber, hb]
      unfold guessNumberCore
      simp only [hq]
      rw [if_neg (by simp [hdup]), hv]
      rfl
  · intro r hr hgt hq
    have hb : boundQid s user .numberGuess = some r.qid := by
      simp [boundQid, hr, hgt]
    simp only [guessNumber, hb]
    unfold guessNumberCore
    simp only [hq]
  · intro gt ch found hf
    have := List.find?_some hf
    simp only [Bool.and_eq_true, Bool.not_eq_true'] at this
    exact this.2

/-- Witness for `record_submission_guards`: each guard fired on a concrete
two-round registry. -/
theorem record_submission_guards_witness :
    answerTrivia
        ⟨[(4, QData.trivia "q" "a" 0 [9] [(9, GameValue.txt "x", 1)] none false)],
         [(9, ⟨QType.trivia, 4⟩)]⟩
        9 (GameValue.txt "y") none 2 =
      (⟨[(4, QData.trivia "q" "a" 0 [9] [(9, GameValue.txt "x", 1)] none false)],
        [(9, ⟨QType.trivia, 4⟩)]⟩, .alreadySubmitted) ∧
    guessNumber stateCX 9 (GameValue.txt "oops") none 3 =
      (stateCX, .invalidInteger) := by
  constructor
  · exact (((record_submission_guards _ 9 (GameValue.txt "y") none 2).2.2.1
      ⟨QType.trivia, 4⟩
      (QData.trivia "q" "a" 0 [9] [(9, GameValue.txt "x", 1)] none false)
      (by decide) (by decide) (by decide)).1 (by decide))
  · exact (((record_submission_guards stateCX 9 (GameValue.txt "oops") none 3).2.2.2.2.1
      ⟨QType.numberGuess, 1⟩ (QData.numberGuess 42 0 [] none true)
      (by decide) (by decide) (by decide)).2.1 (by decide) (by decide))

/-! ## Claim C6: rock-paper-scissors paths -/

/-- C6: the immediate duel resolves with the beats-relation and rejects
invalid choices without scoring them; the multiplayer path rejects invalid
choices without recording and stores valid ones lower-cased. But at expiry
the tally reads the (absent) `answers` key of an rps round, so a round
with two collected choices is announced as "no one participated" and
deleted — the choices are never revealed or scored. -/
theorem rps_tally_discards_choices :
    (dictGet stateRPS.activeQuestions 1).map QData.choices =
      some [(1, "rock", 1), (2, "scissors", 2)] ∧
    tallyGameResults stateRPS 1 = (⟨[], []⟩, .noParticipation .rps) ∧
    (∀ b, rpsDuel none b = .invalidChoice) ∧
    (∀ u b : String,
      (rpsDuel (some u) b = .invalidChoice ↔ rpsChoiceStrings.contains u = false) ∧
      (rpsDuel (some u) b = .tie ↔ (rpsChoiceStrings.contains u = true ∧ u = b)) ∧
      (rpsDuel (some u) b = .userWins ↔
        (rpsChoiceStrings.contains u = true ∧ u ≠ b ∧ rpsWins u b = true)) ∧
      (rpsDuel (some u) b = .botWins ↔
        (rpsChoiceStrings.contains u = true ∧ u ≠ b ∧ rpsWins u b = false))) ∧
    rockPaperScissors stateRPSOpen 7 (some "Lizard") (some 5) "rock" 1 =
      (stateRPSOpen, .collected .invalidChoice) ∧
    ((rockPaperScissors stateRPSOpen 7 (some "ROCK") (some 5) "paper" 1).2 =
        .collected .ok ∧
      ((rockPaperScissors stateRPSOpen 7 (some "ROCK") (some 5) "paper" 1).1).activeQuestions.map
        (fun p => (p.1, p.2.choices.map (fun c => (c.1, c.2.1)))) =
        [(1, [(7, "rock")])]) := by
  refine ⟨by decide, by decide, fun b => rfl, ?_, by decide, by decide, by decide⟩
  intro u b
  have hempty : rpsChoiceStrings.contains "" = false := by decide
  simp only [rpsDuel]
  by_cases h1 : u = "" || !rpsChoiceStrings.contains u
  · rw [if_pos h1]
    have hcont : rpsChoiceStrings.contains u = false := by
      have h1' := h1
      simp only [Bool.or_eq_true, decide_eq_true_eq, Bool.not_eq_true'] at h1'
      rcases h1' with h | h
      · rw [h]; exact hempty
      · exact h
    have hnm : u ∉ rpsChoiceStrings := by simpa using hcont
    refine ⟨by simp [hcont, hnm], by simp [hcont, hnm], by simp [hcont, hnm],
      by simp [hcont, hnm]⟩
  · rw [if_neg h1]
    have h1' := h1
    simp only [Bool.or_eq_true, not_or, Bool.not_eq_true', Bool.not_eq_false,
      decide_eq_true_eq] at h1'
    rcases h1' with ⟨hne, hcont⟩
    have hm : u ∈ rpsChoiceStrings := by simpa using hcont
    by_cases h2 : u = b
    · rw [if_pos h2]
      refine ⟨by simp [hcont, hm], by subst h2; simp [hm], by simp [h2],
        by simp [h2]⟩
    · rw [if_neg h2]
      by_cases h3 : rpsWins u b = true
      · rw [if_pos h3]
        refine ⟨by simp [hcont, hm], by simp [h2], by simp [hcont, hm, h2, h3],
          by simp [h3]⟩
      · rw [if_neg h3]
        have h3' : rpsWins u b = false := by simpa using h3
        refine ⟨by simp [hcont, hm], by simp [h2], by simp [h3'],
          by simp [hcont, hm, h2, h3']⟩

/-! ## Claim C8: countdown announcement boundaries -/

theorem mem_boundaryList {t b : ℕ} (h : b ∈ boundaryList t) :
    ∃ k, k < (t + 4) / 5 ∧ b = t - 5 * k := by
  simp only [boundaryList, List.mem_map, List.mem_range] at h
  rcases h with ⟨k, hk, rfl⟩
  exact ⟨k, hk, rfl⟩

theorem runAnnounce_sound (T : ℕ) : ∀ (polls : List ℚ) (ann : List ℕ),
    (runAnnounce T ann polls).Nodup ∧
    ∀ b ∈ runAnnounce T ann polls, b ∉ ann ∧ b ∈ boundaryList T ∧ b < T := by
  intro polls
  induction polls with
  | nil => intro ann; simp [runAnnounce]
  | cons r rs ih =>
    intro ann
    simp only [runAnnounce]
    rcases hp : pollAnnounce T ann r with _ | b
    · simp only [hp]
      exact ih ann
    · simp only [hp]
      have hmem := List.mem_of_find?_eq_some hp
      have hpred := List.find?_some hp
      simp only [Bool.and_eq_true, Bool.not_eq_true', decide_eq_true_eq] at hpred
      rcases hpred with ⟨⟨hbT, _⟩, hcont⟩
      have hbann : b ∉ ann := by simpa using hcont
      rcases ih (ann ++ [b]) with ⟨ihn, ihm⟩
      constructor
      · refine List.nodup_cons.mpr ⟨?_, ihn⟩
        intro hb
        have h2 := (ihm b hb).1
        simp at h2
      · intro c hc
        rcases List.mem_cons.mp hc with rfl | hc2
        · exact ⟨hbann, hmem, hbT⟩
        · rcases ihm c hc2 with ⟨hc3, hc4, hc5⟩
          exact ⟨fun hcann => hc3 (List.mem_append_left _ hcann), hc4, hc5⟩

/-- C8: across any polling schedule, the countdown announces each boundary
at most once (the emitted list has no duplicates), every announced value
lies on the `range(int(timeout), 0, -5)` grid strictly below the timeout
(for the timeouts in use — multiples of 5 — these are exactly the interval
multiples strictly below the timeout, never the timeout itself), and for
the deployed timeouts 30 (trivia/rps) and 60 (number guessing) a full
polling run announces exactly those boundaries, once each, even when polls
cross a boundary repeatedly. -/
theorem countdown_announce_spec (T : ℕ) (polls : List ℚ) :
    (runAnnounce T [] polls).Nodup ∧
    (∀ b ∈ runAnnounce T [] polls, b ∈ boundaryList T ∧ b < T) ∧
    (T % 5 = 0 → ∀ b ∈ runAnnounce T [] polls, b % 5 = 0 ∧ 0 < b ∧ b < T) ∧
    runAnnounce 30 [] [21, 16, 11, 6, 1] = [25, 20, 15, 10, 5] ∧
    runAnnounce 30 [] [21, 21, 21, 16] = [25, 20] ∧
    runAnnounce 60 [] [51, 46, 41, 36, 31, 26, 21, 16, 11, 6, 1] =
      [55, 50, 45, 40, 35, 30, 25, 20, 15, 10, 5] := by
  rcases runAnnounce_sound T polls [] with ⟨hnd, hsound⟩
  refine ⟨hnd, ?_, ?_, by decide, by decide, by decide⟩
  · intro b hb
    exact ⟨(hsound b hb).2.1, (hsound b hb).2.2⟩
  · intro hT b hb
    rcases hsound b hb with ⟨_, hbl, hlt⟩
    rcases mem_boundaryList hbl with ⟨k, hk, rfl⟩
    omega

/-- Witness for `countdown_announce_spec`: boundary 25 of the trivia
timeout 30, announced by the first poll of the full schedule. -/
theorem countdown_announce_spec_witness :
    25 % 5 = 0 ∧ 0 < 25 ∧ 25 < 30 :=
  (countdown_announce_spec 30 [21, 16, 11, 6, 1]).2.2.1 (by decide) 25 (by decide)

/-! ## Claim C9: trivia question selection -/

/-- C9 counterexample: with every pool entry similar to the buffer and the
RNG returning index 3, `random.choice` selects pool entry 3, not the
least-recently-seen entry (pool entry 0, the oldest in the buffer). -/
theorem staticSelect_random_not_lru :
    staticSelect rhoEq (some bufAll) 3 =
      .ok (staticQuestions.get ⟨3, by decide⟩) ∧
    staticQuestions.get ⟨3, by decide⟩ ≠ staticQuestions.get ⟨0, by decide⟩ := by
  exact ⟨rfl, by decide⟩

theorem findFresh_spec (ρ : String → String → ℚ) (buf : List String) :
    ∀ pool : List (String × String),
    (∃ q, findFresh ρ (some buf) pool = .ok (some q) ∧ q ∈ pool ∧
      ∀ r ∈ buf, ρ (pyStrip (pyLower q.1)) r < similarityThreshold) ∨
    (findFresh ρ (some buf) pool = .ok none ∧
      ∀ p ∈ pool, ∃ r ∈ buf, similarityThreshold ≤ ρ (pyStrip (pyLower p.1)) r) := by
  intro pool
  induction pool with
  | nil => right; exact ⟨rfl, by simp⟩
  | cons q rest ih =>
    by_cases hsim : (buf.any
        (fun r => decide (similarityThreshold ≤ ρ (pyStrip (pyLower q.1)) r))) = true
    · have hred : findFresh ρ (some buf) (q :: rest) = findFresh ρ (some buf) rest := by
        simp [findFresh, isSimilarQuestion, hsim]
      rcases ih with ⟨q2, h1, h2, h3⟩ | ⟨h1, h2⟩
      · left
        exact ⟨q2, by rw [hred]; exact h1, List.mem_cons_of_mem q h2, h3⟩
      · right
        refine ⟨by rw [hred]; exact h1, ?_⟩
        intro p hp
        rcases List.mem_cons.mp hp with rfl | hp2
        · rcases List.any_eq_true.mp hsim with ⟨r, hr, hrs⟩
          exact ⟨r, hr, by simpa using hrs⟩
        · exact h2 p hp2
    · left
      have hsim' : (buf.any
          (fun r => decide (similarityThreshold ≤ ρ (pyStrip (pyLower q.1)) r))) = false := by
        simpa using hsim
      refine ⟨q, ?_, List.mem_cons_self q rest, ?_⟩
      · simp only [findFresh, isSimilarQuestion, hsim']
        rfl
      · intro r hr
        by_contra hcon
        exact hsim (List.any_eq_true.mpr ⟨r, hr,
          by simpa using le_of_not_lt hcon⟩)

/-- C9 (amended): with the recent-history buffer present, the selected
static question either has similarity strictly below the threshold to
every buffered entry, or every pool entry is similar to the buffer and a
uniformly random pool entry (`random.choice`, modelled by the RNG's index)
is used regardless of similarity — not the least-recently-seen entry; the
accepted question is then pushed, normalized, into the buffer. -/
theorem trivia_static_selection_spec (ρ : String → String → ℚ)
    (buf : List String) (randIdx : Fin 5) :
    ∃ q, staticSelect ρ (some buf) randIdx = .ok q ∧
      ((q ∈ staticQuestions ∧
          ∀ r ∈ buf, ρ (pyStrip (pyLower q.1)) r < similarityThreshold) ∨
        ((∀ p ∈ staticQuestions, ∃ r ∈ buf,
            similarityThreshold ≤ ρ (pyStrip (pyLower p.1)) r) ∧
          q = staticQuestions.get ⟨randIdx.1, randIdx.isLt⟩)) ∧
      triviaGameStatic ρ (some buf) randIdx =
        .ok (q, some (dequeAppend50 buf (pyStrip (pyLower q.1)))) := by
  rcases findFresh_spec ρ buf staticQuestions with ⟨q, h1, h2, h3⟩ | ⟨h1, h2⟩
  · refine ⟨q, ?_, Or.inl ⟨h2, h3⟩, ?_⟩
    · simp only [staticSelect, h1]
    · simp only [triviaGameStatic, staticSelect, h1]
      rfl
  · refine ⟨staticQuestions.get ⟨randIdx.1, randIdx.isLt⟩, ?_, Or.inr ⟨h2, rfl⟩, ?_⟩
    · simp only [staticSelect, h1]
    · simp only [triviaGameStatic, staticSelect, h1]
      rfl

/-- Witness for `trivia_static_selection_spec`: the full-buffer state of
the counterexample, where the random entry 3 is selected and pushed. -/
theorem trivia_static_selection_spec_witness :
    ∃ q, staticSelect rhoEq (some bufAll) 3 = .ok q ∧
      ((q ∈ staticQuestions ∧
          ∀ r ∈ bufAll, rhoEq (pyStrip (pyLower q.1)) r < similarityThreshold) ∨
        ((∀ p ∈ staticQuestions, ∃ r ∈ bufAll,
            similarityThreshold ≤ rhoEq (pyStrip (pyLower p.1)) r) ∧
          q = staticQuestions.get ⟨(3 : Fin 5).1, (3 : Fin 5).isLt⟩)) ∧
      triviaGameStatic rhoEq (some bufAll) 3 =
        .ok (q, some (dequeAppend50 bufAll (pyStrip (pyLower q.1)))) :=
  trivia_static_selection_spec rhoEq bufAll 3

/-! ## Claim C10: missing recent-buffer attribute -/

/-- C10: a coordinator on which `set_knowledge_manager` was never called
has no `_recent_trivia` attribute (the constructor does not create it), so
the similarity check — reached by the knowledge-base and static-pool paths
of `trivia_game` outside any `try` — raises `AttributeError` and round
creation fails instead of returning a question; calling
`set_knowledge_manager` creates the (empty) buffer. -/
theorem trivia_uninitialized_buffer_raises (ρ : String → String → ℚ)
    (randIdx : Fin 5) (q : String) :
    initSelectorState.recentTrivia = none ∧
    (setKnowledgeManager initSelectorState).recentTrivia = some [] ∧
    isSimilarQuestion ρ initSelectorState.recentTrivia q = .error .attributeError ∧
    triviaGameStatic ρ initSelectorState.recentTrivia randIdx =
      .error .attributeError := by
  exact ⟨rfl, rfl, rfl, rfl⟩

end Games
